import Mathlib

/-!
Verification development for the order-book / matching engine of the
Graduaction-Project repository (`src/order/orders.py`, `src/order/orderbooks.py`).

The Python code is shallowly embedded as follows.

* Prices are modelled by `ℚ` (the source uses Python floats only for
  comparisons, `min`, and storage of decimal literals; no float rounding is
  exercised by the specified behaviours).
* Python objects live in an explicit store: `Sim.orders : List Order`, indexed
  by `order_id` (which `Order.__post_init__` assigns from a process-global
  monotone counter, so the index is process-unique).  A Python *reference* to
  an `Order` is modelled by its `order_id`; an in-place mutation of an object
  is a `List.set` at that index.
* `heapq` is embedded verbatim (`heappush` / `heappop` / `_siftup` /
  `_siftdown` from CPython's `heapq.py`) over entries `(priority, order_id)`,
  compared lexicographically exactly as Python compares the source's
  `(priority, order_id, Order)` tuples (the third component is never reached
  because `order_id`s are unique).
* Python exceptions are modelled by an `Option PyErr` result component; the
  state returned alongside an error is the state at the moment the exception
  is raised, because in Python the order book's lists and the shared `Order`
  objects keep every mutation performed before the exception escapes.
* The unbounded `while` loop of `_match_market_order` is given explicit fuel;
  `PyErr.outOfGas` marks fuel exhaustion (it never occurs on the states the
  engine itself constructs, and no theorem below depends on it occurring).
-/

set_option linter.unusedVariables false

namespace OrderEngine

/-- `OrderType` enum from `src/order/orders.py`. -/
inductive OrderType
  | MARKET
  | LIMIT
deriving DecidableEq, Repr, Inhabited

/-- `OrderDirection` enum from `src/order/orders.py`. -/
inductive OrderDirection
  | BUY
  | SELL
deriving DecidableEq, Repr, Inhabited

/-- `OrderStatus` enum from `src/order/orders.py`. -/
inductive OrderStatus
  | PENDING
  | EXECUTED
  | CANCELLED
deriving DecidableEq, Repr, Inhabited

/-- The `Order` dataclass from `src/order/orders.py`.  `order_id` is assigned
at construction from the global counter (`__post_init__`); `executed_price`,
`executed_timestep`, `cancelled_timestep` start as `None`. -/
structure Order where
  trader_id : Int
  max_wait_time : Int
  quantity : Int
  timestep : Int
  direction : OrderDirection
  order_type : Option OrderType := none
  price : Option ℚ := none
  order_id : Nat := 0
  status : OrderStatus := OrderStatus.PENDING
  executed_price : Option ℚ := none
  executed_timestep : Option Int := none
  cancelled_timestep : Option Int := none
deriving DecidableEq, Repr, Inhabited

/-- `Order.execute` from `src/order/orders.py` (lines 44-51): records the
execution data, subtracts the fill quantity, and marks `EXECUTED` iff the
remaining quantity is `≤ 0`. -/
def Order.execute (o : Order) (executed_price : ℚ) (executed_timestep : Int)
    (fill_qty : Int) : Order :=
  let o' := { o with
    executed_price := some executed_price
    executed_timestep := some executed_timestep
    quantity := o.quantity - fill_qty }
  if o'.quantity ≤ 0 then { o' with status := OrderStatus.EXECUTED } else o'

/-- `Order.check_timeout` from `src/order/orders.py` (lines 54-59): if
`current_timestep - timestep > max_wait_time`, set `CANCELLED` and return
`true`; otherwise leave the order untouched and return `false`.  The returned
pair is (mutated object, returned boolean). -/
def Order.check_timeout (o : Order) (current_timestep : Int) : Order × Bool :=
  if current_timestep - o.timestep > o.max_wait_time then
    ({ o with status := OrderStatus.CANCELLED }, true)
  else (o, false)

/-- Python exceptions that the embedded code can raise, plus the fuel marker
for the (source-side unbounded) market-matching loop. -/
inductive PyErr
  | typeError
  | valueError
  | indexError
  | outOfGas
deriving DecidableEq, Repr, Inhabited

/-- A heap entry `(priority, order_id)`: the first two components of the
source's `(priority, order_id, Order)` tuples; the object reference is
recovered from the process-unique `order_id`. -/
abbrev Entry : Type := ℚ × Nat

/-- Python's `<` on the source's heap tuples: lexicographic on
`(priority, order_id)` (the `Order` component is never compared because
`order_id`s are unique). -/
def entLt (a b : Entry) : Bool :=
  decide (a.1 < b.1 ∨ (a.1 = b.1 ∧ a.2 < b.2))

/-- The loop of CPython's `heapq._siftdown` with the held `newitem` made
explicit (at entry, `heap[pos] = newitem` always holds at the call sites).
The loop runs at most `pos` times (`pos` strictly decreases towards
`startpos ≥ 0`), so structural fuel of `pos` makes the recursion exact:
exhausted fuel forces `pos = 0 ≤ startpos`, which is the loop's own exit,
writing `newitem` at `pos` just as the source does. -/
def siftdownLoop (fuel : Nat) (heap : List Entry) (startpos pos : Nat)
    (newitem : Entry) : List Entry :=
  match fuel with
  | 0 => heap.set pos newitem
  | fuel + 1 =>
    if startpos < pos then
      let parentpos := (pos - 1) / 2
      let parent := heap.getD parentpos default
      if entLt newitem parent then
        siftdownLoop fuel (heap.set pos parent) startpos parentpos newitem
      else
        heap.set pos newitem
    else
      heap.set pos newitem

/-- CPython's `heapq._siftdown(heap, startpos, pos)`. -/
def siftdown (heap : List Entry) (startpos pos : Nat) : List Entry :=
  siftdownLoop pos heap startpos pos (heap.getD pos default)

/-- The loop of CPython's `heapq._siftup`: move the smaller child up until a
leaf is reached, then place `newitem` and sift it back towards the root.
Each iteration moves `pos` strictly down the tree while the length is fixed,
so `heap.length` iterations of fuel always suffice; the fuel-exhausted
branch is unreachable from the call sites below. -/
def siftupLoop (fuel : Nat) (heap : List Entry) (startpos pos : Nat)
    (newitem : Entry) : List Entry :=
  match fuel with
  | 0 => siftdown (heap.set pos newitem) startpos pos
  | fuel + 1 =>
    let endpos := heap.length
    let childpos := 2 * pos + 1
    if childpos < endpos then
      let rightpos := childpos + 1
      if rightpos < endpos ∧
          ¬ entLt (heap.getD childpos default) (heap.getD rightpos default) then
        siftupLoop fuel (heap.set pos (heap.getD rightpos default)) startpos
          rightpos newitem
      else
        siftupLoop fuel (heap.set pos (heap.getD childpos default)) startpos
          childpos newitem
    else
      siftdown (heap.set pos newitem) startpos pos

/-- CPython's `heapq._siftup(heap, pos)`. -/
def siftup (heap : List Entry) (pos : Nat) : List Entry :=
  siftupLoop heap.length heap pos pos (heap.getD pos default)

/-- CPython's `heapq.heappush`: append, then sift the new last element down
towards the root. -/
def heappush (heap : List Entry) (item : Entry) : List Entry :=
  siftdown (heap ++ [item]) 0 heap.length

/-- CPython's `heapq.heappop`: pop the last element; if the heap is still
non-empty, remember the root, overwrite it with the popped last element and
sift; `none` models the `IndexError` on an empty heap. -/
def heappop (heap : List Entry) : Option (Entry × List Entry) :=
  match heap.getLast? with
  | none => none
  | some lastelt =>
    let rest := heap.dropLast
    if rest.isEmpty then some (lastelt, rest)
    else some (rest.getD 0 default, siftup (rest.set 0 lastelt) 0)

/-- `siftdownLoop` preserves the length of the heap. -/
theorem siftdownLoop_length (fuel : Nat) (heap : List Entry)
    (startpos pos : Nat) (newitem : Entry) :
    (siftdownLoop fuel heap startpos pos newitem).length = heap.length := by
  induction fuel generalizing heap pos with
  | zero => exact List.length_set ..
  | succ fuel ih =>
    rw [siftdownLoop]
    dsimp only
    split
    · split
      · rw [ih, List.length_set]
      · exact List.length_set ..
    · exact List.length_set ..

/-- `siftdown` preserves the length of the heap. -/
theorem siftdown_length (heap : List Entry) (startpos pos : Nat) :
    (siftdown heap startpos pos).length = heap.length :=
  siftdownLoop_length ..

/-- `siftupLoop` preserves the length of the heap. -/
theorem siftupLoop_length (fuel : Nat) (heap : List Entry) (startpos pos : Nat)
    (newitem : Entry) :
    (siftupLoop fuel heap startpos pos newitem).length = heap.length := by
  induction fuel generalizing heap pos with
  | zero => rw [siftupLoop, siftdown_length, List.length_set]
  | succ fuel ih =>
    rw [siftupLoop]
    dsimp only
    split
    · split
      · rw [ih, List.length_set]
      · rw [ih, List.length_set]
    · rw [siftdown_length, List.length_set]

/-- `siftup` preserves the length of the heap. -/
theorem siftup_length (heap : List Entry) (pos : Nat) :
    (siftup heap pos).length = heap.length :=
  siftupLoop_length ..

/-- `heappop` removes exactly one element (counting lengths). -/
theorem heappop_length {heap : List Entry} {e : Entry} {r : List Entry}
    (h : heappop heap = some (e, r)) : r.length + 1 = heap.length := by
  unfold heappop at h
  cases hL : heap.getLast? with
  | none => rw [hL] at h; exact absurd h (by simp)
  | some lastelt =>
    have hne : heap ≠ [] := by
      intro hnil; rw [hnil] at hL; simp at hL
    rw [hL] at h
    simp only at h
    split at h
    · cases h
      have : heap.length ≠ 0 := fun h0 => hne (List.eq_nil_of_length_eq_zero h0)
      simp only [List.length_dropLast]
      omega
    · cases h
      rename_i hre
      have : heap.length ≠ 0 := fun h0 => hne (List.eq_nil_of_length_eq_zero h0)
      rw [siftup_length, List.length_set, List.length_dropLast]
      omega

/-- One record of `OrderBook.trade_log` (`src/order/orderbooks.py`,
lines 54-60). -/
structure Trade where
  buyer_id : Nat
  seller_id : Nat
  trade_timestamp : Int
  trade_price : ℚ
  trade_qty : Int
deriving DecidableEq, Repr, Inhabited

/-- The whole mutable state: the Python object store (`orders`, indexed by
`order_id`) together with the one `OrderBook` instance's fields `buys`,
`sells` and `trade_log`. -/
structure Sim where
  orders : List Order := []
  buys : List Entry := []
  sells : List Entry := []
  trade_log : List Trade := []
deriving DecidableEq, Repr, Inhabited

/-- Dereference an order id in the store (total: a well-formed state never
looks up an id that was not handed out by `mkOrder`). -/
def listOrd (orders : List Order) (i : Nat) : Order :=
  orders.getD i default

/-- The `Order(...)` constructor plus `__post_init__` (`src/order/orders.py`,
lines 22-42): builds the dataclass instance — performing no validation of any
argument — and assigns the next process-global `order_id`.  Returns the new
store and the id (the reference to the new object). -/
def mkOrder (s : Sim) (trader_id max_wait_time quantity timestep : Int)
    (direction : OrderDirection) (order_type : Option OrderType := none)
    (price : Option ℚ := none) : Sim × Nat :=
  let o : Order := {
    trader_id := trader_id
    max_wait_time := max_wait_time
    quantity := quantity
    timestep := timestep
    direction := direction
    order_type := order_type
    price := price
    order_id := s.orders.length
    status := OrderStatus.PENDING
    executed_price := none
    executed_timestep := none
    cancelled_timestep := none }
  ({ s with orders := s.orders ++ [o] }, s.orders.length)

/-- `OrderBook._priority` (`src/order/orderbooks.py`, lines 85-88): raises
`ValueError` when the order has no price. -/
def priorityOf (order : Order) : Except PyErr ℚ :=
  match order.price with
  | none => Except.error PyErr.valueError
  | some p => Except.ok (if order.direction = OrderDirection.BUY then -p else p)

/-- The `while` loop of `OrderBook.best_bid` (lines 90-97): peek the top of
`buys`; a PENDING order with positive quantity yields `-price` (the stored
priority negated); anything else is a stale entry, popped and skipped.
Each iteration pops one entry, so fuel equal to the initial length makes the
recursion exact: fuel can only run out on the empty heap, where the loop
itself returns `None`. -/
def best_bid_loop (fuel : Nat) (orders : List Order) (buys : List Entry) :
    Option ℚ × List Entry :=
  match fuel with
  | 0 => (none, buys)
  | fuel + 1 =>
    if buys = [] then (none, buys)
    else
      let e := buys.getD 0 default
      let order := listOrd orders e.2
      if order.status = OrderStatus.PENDING ∧ 0 < order.quantity then
        (some (-e.1), buys)
      else
        match heappop buys with
        | some (_, heap') => best_bid_loop fuel orders heap'
        | none => (none, buys)

/-- The `while` loop of `OrderBook.best_ask` (lines 99-106), fuelled like
`best_bid_loop`. -/
def best_ask_loop (fuel : Nat) (orders : List Order) (sells : List Entry) :
    Option ℚ × List Entry :=
  match fuel with
  | 0 => (none, sells)
  | fuel + 1 =>
    if sells = [] then (none, sells)
    else
      let e := sells.getD 0 default
      let order := listOrd orders e.2
      if order.status = OrderStatus.PENDING ∧ 0 < order.quantity then
        (some e.1, sells)
      else
        match heappop sells with
        | some (_, heap') => best_ask_loop fuel orders heap'
        | none => (none, sells)

/-- `OrderBook.best_bid()`: returns the value and the state after the lazy
pops. -/
def best_bid (s : Sim) : Option ℚ × Sim :=
  let r := best_bid_loop s.buys.length s.orders s.buys
  (r.1, { s with buys := r.2 })

/-- `OrderBook.best_ask()`. -/
def best_ask (s : Sim) : Option ℚ × Sim :=
  let r := best_ask_loop s.sells.length s.orders s.sells
  (r.1, { s with sells := r.2 })

/-- `OrderBook._submit_limit_order` (lines 18-23): build the entry
`(self._priority(order), order.order_id, order)` and push it on the order's
own side.  `_priority` raises `ValueError` on a priceless order before any
mutation. -/
def _submit_limit_order (s : Sim) (oid : Nat) : Sim × Option PyErr :=
  let order := listOrd s.orders oid
  match priorityOf order with
  | Except.error e => (s, some e)
  | Except.ok pr =>
    if order.direction = OrderDirection.BUY then
      ({ s with buys := heappush s.buys (pr, order.order_id) }, none)
    else
      ({ s with sells := heappush s.sells (pr, order.order_id) }, none)

/-- Result of the market-matching `while` loop (lines 41-69): the threaded
store, the opposite-side heap, the trade log, the local `remaining_quantity`,
and the exception channel. -/
structure LoopRes where
  orders : List Order
  book : List Entry
  log : List Trade
  remaining : Int
  err : Option PyErr
deriving DecidableEq, Repr, Inhabited

/-- The matching sweep of `_match_market_order` (lines 41-69), fuelled.
Each iteration: pop the top entry; if the resting price satisfies the
aggressor's bound, fill `min(remaining, top.quantity)` at the resting price
(Python's `p if p else 0.0` truthiness included), `execute` both orders
(aggressor first, then the popped object — both through the store, which is
exactly Python's in-place object mutation), append the trade record, and
re-push the popped order iff it still has positive quantity; if the bound
fails, `break`.  A missing price on either side is the `TypeError` Python
raises at the comparison of line 46-47. -/
def matchLoop (fuel : Nat) (orders : List Order) (book : List Entry)
    (log : List Trade) (remaining : Int) (aggrId : Nat) : LoopRes :=
  match fuel with
  | 0 => ⟨orders, book, log, remaining, some PyErr.outOfGas⟩
  | fuel + 1 =>
    if 0 < remaining ∧ book ≠ [] then
      match heappop book with
      | none => ⟨orders, book, log, remaining, some PyErr.indexError⟩
      | some (top_entry, book') =>
        let top := listOrd orders top_entry.2
        let aggr := listOrd orders aggrId
        match top.price, aggr.price with
        | some tp, some ap =>
          if (aggr.direction = OrderDirection.BUY ∧ tp ≤ ap) ∨
              (aggr.direction = OrderDirection.SELL ∧ tp ≥ ap) then
            let trade_qty := min remaining top.quantity
            let trade_price := if tp = 0 then (0 : ℚ) else tp
            let orders₁ := orders.set aggrId
              ((listOrd orders aggrId).execute trade_price aggr.timestep
                trade_qty)
            let orders₂ := orders₁.set top_entry.2
              ((listOrd orders₁ top_entry.2).execute trade_price aggr.timestep
                trade_qty)
            let record : Trade := {
              buyer_id := if aggr.direction = OrderDirection.BUY then
                aggr.order_id else top.order_id
              seller_id := if aggr.direction = OrderDirection.BUY then
                top.order_id else aggr.order_id
              trade_timestamp := aggr.timestep
              trade_price := trade_price
              trade_qty := trade_qty }
            let log' := log ++ [record]
            let remaining' := remaining - trade_qty
            let top₂ := listOrd orders₂ top_entry.2
            if 0 < top₂.quantity then
              match priorityOf top₂ with
              | Except.error e => ⟨orders₂, book', log', remaining', some e⟩
              | Except.ok pr =>
                matchLoop fuel orders₂ (heappush book' (pr, top₂.order_id))
                  log' remaining' aggrId
            else
              matchLoop fuel orders₂ book' log' remaining' aggrId
          else
            ⟨orders, book', log, remaining, none⟩
        | _, _ => ⟨orders, book', log, remaining, some PyErr.typeError⟩
    else
      ⟨orders, book, log, remaining, none⟩

/-- `OrderBook._match_market_order` (lines 25-82).  The best-price query
mutates the opposite side in place (lazy pops) before the sweep; `None`
means no match — return silently.  After the sweep, a positive remainder
makes the source construct the leftover LIMIT `Order` at lines 73-80
*without the required `max_wait_time` argument*, which raises `TypeError`
before any further mutation — so no leftover order is ever created or
resubmitted, and the exception escapes with the swept state. -/
def _match_market_order (s : Sim) (aggrId : Nat) : Sim × Option PyErr :=
  let order := listOrd s.orders aggrId
  let remaining_quantity := order.quantity
  let bq := if order.direction = OrderDirection.BUY then best_ask s
    else best_bid s
  match bq.1 with
  | none => (bq.2, none)
  | some _ =>
    let s₀ := bq.2
    let book := if order.direction = OrderDirection.BUY then s₀.sells
      else s₀.buys
    let r := matchLoop (book.length + remaining_quantity.toNat + 1) s₀.orders
      book s₀.trade_log remaining_quantity aggrId
    let s₁ := if order.direction = OrderDirection.BUY then
      { s₀ with orders := r.orders, sells := r.book, trade_log := r.log }
      else { s₀ with orders := r.orders, buys := r.book, trade_log := r.log }
    match r.err with
    | some e => (s₁, some e)
    | none =>
      if 0 < r.remaining then (s₁, some PyErr.typeError) else (s₁, none)

/-- `OrderBook.submit_order` (lines 12-16): dispatch on `order_type`; any
other value (the constructor's default `None` included) falls through both
branches and the order is silently ignored. -/
def submit_order (s : Sim) (oid : Nat) : Sim × Option PyErr :=
  match (listOrd s.orders oid).order_type with
  | some OrderType.MARKET => _match_market_order s oid
  | some OrderType.LIMIT => _submit_limit_order s oid
  | none => (s, none)

/-- One `for entry in side[:]` loop of `cancel_timed_out_orders`
(lines 121-133): iterate over the snapshot, `check_timeout` each referenced
order (an in-place object mutation), and `list.remove` the entry from the
live list when it returns true. -/
def cancelLoop (orders : List Order) (snapshot cur : List Entry)
    (current_timestamp : Int) : List Order × List Entry :=
  match snapshot with
  | [] => (orders, cur)
  | e :: rest =>
    let oc := (listOrd orders e.2).check_timeout current_timestamp
    let orders' := orders.set e.2 oc.1
    if oc.2 then cancelLoop orders' rest (cur.erase e) current_timestamp
    else cancelLoop orders' rest cur current_timestamp

/-- `OrderBook.cancel_timed_out_orders` (lines 121-133): sweep the buys
snapshot, then the sells snapshot. -/
def cancel_timed_out_orders (s : Sim) (current_timestamp : Int) : Sim :=
  let rb := cancelLoop s.orders s.buys s.buys current_timestamp
  let rs := cancelLoop rb.1 s.sells s.sells current_timestamp
  { s with orders := rs.1, buys := rb.2, sells := rs.2 }

/-- The timeout predicate of `Order.check_timeout`, as a function of the
store (it reads only the immutable fields `timestep` and `max_wait_time`). -/
def timedOut (orders : List Order) (t : Int) (e : Entry) : Bool :=
  decide (t - (listOrd orders e.2).timestep > (listOrd orders e.2).max_wait_time)

/-- A call against a single `Order` object, for stating lifecycle claims. -/
inductive OrderOp
  | exec (price : ℚ) (timestep : Int) (fill_qty : Int)
  | timeout (t : Int)
deriving DecidableEq, Repr

/-- Apply a sequence of `execute` / `check_timeout` calls to one order. -/
def applyOps (o : Order) : List OrderOp → Order
  | [] => o
  | OrderOp.exec p t q :: rest => applyOps (o.execute p t q) rest
  | OrderOp.timeout t :: rest => applyOps (o.check_timeout t).1 rest

/-!
## Concrete scenario states

Concrete prices are written `mkRat n 10` (e.g. `mkRat 101 10` is the source
literal `10.1`): the embedded engine only negates and compares prices, and on
these values ℚ and binary floating point agree.
-/

/-- C4 scenario, step 1: BUY LIMIT 500 @ 10.1, submitted to the empty book. -/
def c4_a : Sim × Nat :=
  mkOrder {} 1 1000 500 0 OrderDirection.BUY (some OrderType.LIMIT)
    (some (mkRat 101 10))

def c4_s1 : Sim := (submit_order c4_a.1 c4_a.2).1

/-- C4 scenario, step 2: SELL MARKET 200, price bound 10.0. -/
def c4_b : Sim × Nat :=
  mkOrder c4_s1 2 1000 200 1 OrderDirection.SELL (some OrderType.MARKET)
    (some (mkRat 100 10))

def c4_s2 : Sim := (submit_order c4_b.1 c4_b.2).1

/-- C4 scenario, step 3: SELL MARKET 200, price bound 10.1. -/
def c4_c : Sim × Nat :=
  mkOrder c4_s2 3 1000 200 2 OrderDirection.SELL (some OrderType.MARKET)
    (some (mkRat 101 10))

def c4_s3 : Sim := (submit_order c4_c.1 c4_c.2).1

/-- C4 scenario, step 4: SELL LIMIT 500 @ 10.2. -/
def c4_d : Sim × Nat :=
  mkOrder c4_s3 4 1000 500 3 OrderDirection.SELL (some OrderType.LIMIT)
    (some (mkRat 102 10))

def c4_s4 : Sim := (submit_order c4_d.1 c4_d.2).1

/-- C4 scenario, step 5: BUY MARKET 500, price bound 10.2. -/
def c4_e : Sim × Nat :=
  mkOrder c4_s4 5 1000 500 4 OrderDirection.BUY (some OrderType.MARKET)
    (some (mkRat 102 10))

def c4_s5 : Sim := (submit_order c4_e.1 c4_e.2).1

/-- C1 failing input, step 1: a resting BUY LIMIT 100 @ 10.1. -/
def c1_a : Sim × Nat :=
  mkOrder {} 1 1000 100 0 OrderDirection.BUY (some OrderType.LIMIT)
    (some (mkRat 101 10))

def c1_s1 : Sim := (submit_order c1_a.1 c1_a.2).1

/-- C1 failing input, step 2: SELL MARKET 200 with price bound 10.0 — only
100 can fill, so the sweep ends with `remaining = 100 > 0` and the source
reaches the leftover-LIMIT construction of lines 72-81. -/
def c1_b : Sim × Nat :=
  mkOrder c1_s1 2 1000 200 1 OrderDirection.SELL (some OrderType.MARKET)
    (some (mkRat 100 10))

def c1_r : Sim × Option PyErr := submit_order c1_b.1 c1_b.2

/-- C3 counterexample order: PENDING, quantity 1. -/
def c3_o : Order :=
  { trader_id := 1, max_wait_time := 5, quantity := 1, timestep := 0
    direction := OrderDirection.BUY, order_type := some OrderType.LIMIT
    price := some (mkRat 10 1) }

/-- C2 counterexample: the constructor call with a non-positive quantity
(quantity 0, a LIMIT with a price). -/
def c2_r : Sim × Nat :=
  mkOrder {} 1 5 0 0 OrderDirection.BUY (some OrderType.LIMIT)
    (some (mkRat 10 1))

/-- C10 witness input: an order whose `order_type` is the constructor's
default `None`. -/
def c10_w : Sim × Nat := mkOrder {} 7 5 10 0 OrderDirection.BUY

/-- C9 witness input: a BUY MARKET order facing an empty ask side. -/
def c9_w : Sim × Nat :=
  mkOrder {} 1 5 10 0 OrderDirection.BUY (some OrderType.MARKET)
    (some (mkRat 10 1))

/-- C7 witness, step 1: a resting SELL LIMIT 300 @ 10.0. -/
def c7_a : Sim × Nat :=
  mkOrder {} 1 1000 300 0 OrderDirection.SELL (some OrderType.LIMIT)
    (some (mkRat 100 10))

def c7_s1 : Sim := (submit_order c7_a.1 c7_a.2).1

/-- C7 witness, step 2: a BUY LIMIT 400 @ 10.1 that crosses the resting ask
(10.1 ≥ 10.0) — submitted as LIMIT it must nevertheless rest. -/
def c7_b : Sim × Nat :=
  mkOrder c7_s1 2 1000 400 1 OrderDirection.BUY (some OrderType.LIMIT)
    (some (mkRat 101 10))

/-- C5 witness store: order 0 is a resting SELL LIMIT 500 @ 10.2, order 1 a
BUY MARKET 500 with price bound 10.2. -/
def c5_orders : List Order :=
  [{ trader_id := 1, max_wait_time := 1000, quantity := 500, timestep := 0
     direction := OrderDirection.SELL, order_type := some OrderType.LIMIT
     price := some (mkRat 102 10), order_id := 0 },
   { trader_id := 2, max_wait_time := 1000, quantity := 500, timestep := 1
     direction := OrderDirection.BUY, order_type := some OrderType.MARKET
     price := some (mkRat 102 10), order_id := 1 }]

/-- C5 witness book (the ask side being swept): one entry for order 0. -/
def c5_book : List Entry := [(mkRat 102 10, 0)]

/-- C8 witness store: order 0 is a resting SELL LIMIT 500 @ 10.2, order 1 a
BUY MARKET 300 with price bound 10.0 — the bound check 10.2 ≤ 10.0 fails. -/
def c8_orders : List Order :=
  [{ trader_id := 1, max_wait_time := 1000, quantity := 500, timestep := 0
     direction := OrderDirection.SELL, order_type := some OrderType.LIMIT
     price := some (mkRat 102 10), order_id := 0 },
   { trader_id := 2, max_wait_time := 1000, quantity := 300, timestep := 1
     direction := OrderDirection.BUY, order_type := some OrderType.MARKET
     price := some (mkRat 100 10), order_id := 1 }]

/-- C8 witness book: one resting ask entry for order 0. -/
def c8_book : List Entry := [(mkRat 102 10, 0)]

/-- C6 witness state at `t = 5`: order 0 rests on the bid side with
`max_wait_time = 5` submitted at 0 (so `5 - 0 > 5` is false — the boundary
case, kept); order 1 rests on the ask side with `max_wait_time = 2`
(so `5 - 0 > 2` — cancelled). -/
def c6_s : Sim :=
  { orders := [
      { trader_id := 1, max_wait_time := 5, quantity := 10, timestep := 0
        direction := OrderDirection.BUY, order_type := some OrderType.LIMIT
        price := some (mkRat 10 1), order_id := 0 },
      { trader_id := 2, max_wait_time := 2, quantity := 10, timestep := 0
        direction := OrderDirection.SELL, order_type := some OrderType.LIMIT
        price := some (mkRat 11 1), order_id := 1 }]
    buys := [(-(mkRat 10 1), 0)]
    sells := [(mkRat 11 1, 1)]
    trade_log := [] }

end OrderEngine

namespace OrderEngine

/-!
## Claim theorems
-/

/-- C4: starting from the empty book, after BUY LIMIT 500@10.1, SELL MARKET
200 (bound 10.0), SELL MARKET 200 (bound 10.1) and SELL LIMIT 500@10.2, the
best bid entry's order has quantity 100, the best ask entry's order has
quantity 500, and the trade log is exactly two records at price 10.1 and
quantity 200; after the further BUY MARKET 500 (bound 10.2) the ask side is
empty, exactly one bid entry remains, and its order's quantity is still
100. -/
theorem C4_seeded_scenario :
    (listOrd c4_s4.orders (c4_s4.buys.getD 0 default).2).quantity = 100 ∧
    (listOrd c4_s4.orders (c4_s4.sells.getD 0 default).2).quantity = 500 ∧
    c4_s4.trade_log.map Trade.trade_price = [mkRat 101 10, mkRat 101 10] ∧
    c4_s4.trade_log.map Trade.trade_qty = [200, 200] ∧
    c4_s5.sells = [] ∧
    c4_s5.buys.length = 1 ∧
    (listOrd c4_s5.orders (c4_s5.buys.getD 0 default).2).quantity = 100 := by
  decide

/-- C10: an order whose `order_type` is neither MARKET nor LIMIT (in the
embedding: the constructor's default `none`) falls through both branches of
`submit_order`: the state — both priority collections, the trade log, every
order — is returned untouched and no error is raised. -/
theorem C10_unknown_type_ignored (s : Sim) (oid : Nat)
    (h : (listOrd s.orders oid).order_type = none) :
    submit_order s oid = (s, none) := by
  unfold submit_order
  rw [h]

/-- C10 witness: a concrete order constructed with the default
`order_type=None` is ignored by `submit_order`. -/
theorem C10_witness :
    (listOrd c10_w.1.orders c10_w.2).order_type = none ∧
    submit_order c10_w.1 c10_w.2 = (c10_w.1, none) :=
  ⟨by decide, C10_unknown_type_ignored c10_w.1 c10_w.2 (by decide)⟩

/-- C2 counterexample: constructing an `Order` with a non-positive quantity
(quantity 0) does *not* fail — `__post_init__` validates nothing, no
`InvalidOrder` exists anywhere in the module — and an `Order` object with
the uncoerced invalid quantity and status PENDING is produced. -/
theorem C2_counterexample :
    c2_r.1.orders.length = 1 ∧
    (listOrd c2_r.1.orders c2_r.2).quantity = 0 ∧
    (listOrd c2_r.1.orders c2_r.2).status = OrderStatus.PENDING := by
  decide

/-- C2 amended: `Order` construction is total and never validates or
coerces: for every argument list — non-positive quantities, a missing or
non-positive price on a LIMIT order included — exactly one new `Order` is
produced, storing the arguments verbatim, with a fresh `order_id` and status
PENDING. -/
theorem C2_construction_never_fails (s : Sim)
    (trader_id max_wait_time quantity timestep : Int)
    (direction : OrderDirection) (order_type : Option OrderType)
    (price : Option ℚ) :
    (mkOrder s trader_id max_wait_time quantity timestep direction order_type
      price).2 = s.orders.length ∧
    (mkOrder s trader_id max_wait_time quantity timestep direction order_type
      price).1.orders = s.orders ++ [{
        trader_id := trader_id, max_wait_time := max_wait_time
        quantity := quantity, timestep := timestep, direction := direction
        order_type := order_type, price := price
        order_id := s.orders.length, status := OrderStatus.PENDING
        executed_price := none, executed_timestep := none
        cancelled_timestep := none }] ∧
    (mkOrder s trader_id max_wait_time quantity timestep direction order_type
      price).1.buys = s.buys ∧
    (mkOrder s trader_id max_wait_time quantity timestep direction order_type
      price).1.sells = s.sells ∧
    (mkOrder s trader_id max_wait_time quantity timestep direction order_type
      price).1.trade_log = s.trade_log :=
  ⟨rfl, rfl, rfl, rfl, rfl⟩

/-- C3 counterexample: the status machine is not terminal.  A PENDING order
fully filled by `execute` becomes EXECUTED, and a subsequent `check_timeout`
past the deadline moves it EXECUTED → CANCELLED: a two-call sequence that
changes an EXECUTED order's status to CANCELLED. -/
theorem C3_counterexample :
    (applyOps c3_o [OrderOp.exec (mkRat 10 1) 0 1]).status =
      OrderStatus.EXECUTED ∧
    (applyOps c3_o [OrderOp.exec (mkRat 10 1) 0 1,
      OrderOp.timeout 100]).status = OrderStatus.CANCELLED := by
  decide

/-- C3 amended: the monotonicity that survives: no sequence of `execute` /
`check_timeout` calls ever brings a non-PENDING order back to PENDING
(`execute` only ever sets EXECUTED, `check_timeout` only ever sets
CANCELLED).  Between the terminal states, however, both transitions
EXECUTED → CANCELLED (timed-out `check_timeout`) and CANCELLED → EXECUTED
(`execute` driving quantity to `≤ 0`) are possible, as the counterexample
shows. -/
theorem C3_never_back_to_pending (o : Order) (ops : List OrderOp)
    (h : o.status ≠ OrderStatus.PENDING) :
    (applyOps o ops).status ≠ OrderStatus.PENDING := by
  induction ops generalizing o with
  | nil => exact h
  | cons op rest ih =>
    cases op with
    | exec p t q =>
      refine ih _ ?_
      unfold Order.execute
      dsimp only
      split
      · simp
      · exact h
    | timeout t =>
      refine ih _ ?_
      unfold Order.check_timeout
      split
      · simp
      · exact h

/-- C3 witness for the amended theorem: a concrete EXECUTED order stays away
from PENDING under a further call sequence. -/
theorem C3_witness :
    ({ c3_o with status := OrderStatus.EXECUTED } : Order).status ≠
      OrderStatus.PENDING ∧
    (applyOps { c3_o with status := OrderStatus.EXECUTED }
      [OrderOp.timeout 100, OrderOp.exec (mkRat 10 1) 0 1]).status ≠
      OrderStatus.PENDING :=
  ⟨by decide, C3_never_back_to_pending _ _ (by decide)⟩

/-- C9: submitting a MARKET order when the opposite side's best-price query
returns `None` is a silent no-op, not an error: `submit_order` returns
normally (no exception), the store — hence every order's state — is
untouched, the trade log is unchanged, and the order's own side is untouched
(no remainder is converted to a resting LIMIT order). -/
theorem C9_market_empty_opposite_noop (s : Sim) (oid : Nat)
    (hty : (listOrd s.orders oid).order_type = some OrderType.MARKET)
    (hnone : (if (listOrd s.orders oid).direction = OrderDirection.BUY
      then (best_ask s).1 else (best_bid s).1) = none) :
    (submit_order s oid).2 = none ∧
    (submit_order s oid).1.orders = s.orders ∧
    (submit_order s oid).1.trade_log = s.trade_log ∧
    (if (listOrd s.orders oid).direction = OrderDirection.BUY
      then (submit_order s oid).1.buys = s.buys
      else (submit_order s oid).1.sells = s.sells) := by
  by_cases hd : (listOrd s.orders oid).direction = OrderDirection.BUY
  · rw [if_pos hd] at hnone
    have hnone' : (best_ask_loop s.sells.length s.orders s.sells).1 = none :=
      hnone
    simp only [submit_order, _match_market_order, hty, hd, if_pos, if_true,
      best_ask, hnone']
    exact ⟨trivial, trivial, trivial, trivial⟩
  · rw [if_neg hd] at hnone
    have hnone' : (best_bid_loop s.buys.length s.orders s.buys).1 = none :=
      hnone
    simp only [submit_order, _match_market_order, hty, hd, if_neg, if_false,
      best_bid, hnone']
    simp [hd]

/-- C9 witness: a BUY MARKET order submitted to a book with an empty ask
side. -/
theorem C9_witness :
    ((listOrd c9_w.1.orders c9_w.2).order_type = some OrderType.MARKET ∧
      (if (listOrd c9_w.1.orders c9_w.2).direction = OrderDirection.BUY
        then (best_ask c9_w.1).1 else (best_bid c9_w.1).1) = none) ∧
    ((submit_order c9_w.1 c9_w.2).2 = none ∧
      (submit_order c9_w.1 c9_w.2).1.orders = c9_w.1.orders ∧
      (submit_order c9_w.1 c9_w.2).1.trade_log = c9_w.1.trade_log ∧
      (if (listOrd c9_w.1.orders c9_w.2).direction = OrderDirection.BUY
        then (submit_order c9_w.1 c9_w.2).1.buys = c9_w.1.buys
        else (submit_order c9_w.1 c9_w.2).1.sells = c9_w.1.sells)) :=
  ⟨⟨by decide, by decide⟩,
    C9_market_empty_opposite_noop c9_w.1 c9_w.2 (by decide) (by decide)⟩

/-- C7: a LIMIT order never matches at submission time: `submit_order`
pushes the entry `(±price, order_id)` onto the order's own side and does
nothing else — the store (every order's state), the trade log, and the
opposite side are unchanged, so no trade can be produced even when the
limit price crosses the opposite side's best. -/
theorem C7_limit_never_matches (s : Sim) (oid : Nat) (p : ℚ)
    (hty : (listOrd s.orders oid).order_type = some OrderType.LIMIT)
    (hpr : (listOrd s.orders oid).price = some p) :
    (submit_order s oid).2 = none ∧
    (submit_order s oid).1.orders = s.orders ∧
    (submit_order s oid).1.trade_log = s.trade_log ∧
    (if (listOrd s.orders oid).direction = OrderDirection.BUY
      then (submit_order s oid).1.buys =
          heappush s.buys (-p, (listOrd s.orders oid).order_id) ∧
        (submit_order s oid).1.sells = s.sells
      else (submit_order s oid).1.sells =
          heappush s.sells (p, (listOrd s.orders oid).order_id) ∧
        (submit_order s oid).1.buys = s.buys) := by
  by_cases hd : (listOrd s.orders oid).direction = OrderDirection.BUY
  · simp only [submit_order, _submit_limit_order, priorityOf, hty, hpr, hd,
      if_pos, if_true]
    simp [hd]
  · simp only [submit_order, _submit_limit_order, priorityOf, hty, hpr, hd,
      if_neg, if_false]
    simp [hd]

/-- C7 witness: a BUY LIMIT at 10.1 submitted against a resting SELL LIMIT
at 10.0 (a crossing pair): the trade log was empty and stays whatever it
was, the ask side is untouched, and both orders end resting PENDING. -/
theorem C7_witness :
    ((listOrd c7_b.1.orders c7_b.2).order_type = some OrderType.LIMIT ∧
      (listOrd c7_b.1.orders c7_b.2).price = some (mkRat 101 10) ∧
      c7_b.1.trade_log = [] ∧
      (listOrd (submit_order c7_b.1 c7_b.2).1.orders c7_a.2).status =
        OrderStatus.PENDING ∧
      (listOrd (submit_order c7_b.1 c7_b.2).1.orders c7_b.2).status =
        OrderStatus.PENDING) ∧
    ((submit_order c7_b.1 c7_b.2).2 = none ∧
      (submit_order c7_b.1 c7_b.2).1.orders = c7_b.1.orders ∧
      (submit_order c7_b.1 c7_b.2).1.trade_log = c7_b.1.trade_log ∧
      (if (listOrd c7_b.1.orders c7_b.2).direction = OrderDirection.BUY
        then (submit_order c7_b.1 c7_b.2).1.buys =
            heappush c7_b.1.buys
              (-(mkRat 101 10), (listOrd c7_b.1.orders c7_b.2).order_id) ∧
          (submit_order c7_b.1 c7_b.2).1.sells = c7_b.1.sells
        else (submit_order c7_b.1 c7_b.2).1.sells =
            heappush c7_b.1.sells
              (mkRat 101 10, (listOrd c7_b.1.orders c7_b.2).order_id) ∧
          (submit_order c7_b.1 c7_b.2).1.buys = c7_b.1.buys)) :=
  ⟨⟨by decide, by decide, by decide, by decide, by decide⟩,
    C7_limit_never_matches c7_b.1 c7_b.2 (mkRat 101 10) (by decide)
      (by decide)⟩

/-- C1 (code bug): at the C1 failing input the market sweep fills 100 of the
200-lot SELL MARKET order and ends with `remaining = 100 > 0`; the source
then calls `Order(trader_id=…, order_type=…, direction=…, quantity=…,
timestep=…, price=…)` *without* the dataclass's required `max_wait_time`
argument (orderbooks.py lines 73-80), so Python raises `TypeError` instead
of resubmitting the remainder as a resting LIMIT order: afterwards no new
order exists, nothing rests on the sell side, and the exception escapes
`submit_order`. -/
theorem C1_remainder_conversion_raises :
    c1_r.2 = some PyErr.typeError ∧
    c1_r.1.trade_log.length = 1 ∧
    c1_r.1.orders.length = 2 ∧
    c1_r.1.sells = [] ∧
    c1_r.1.buys = [] := by
  decide

/-- Helper: a `getD` at a valid index is a member of the list. -/
theorem getD_mem {l : List Entry} {n : Nat} (h : n < l.length) :
    l.getD n default ∈ l := by
  rw [List.getD_eq_getElem l default h]
  exact List.getElem_mem h

/-- Helper: `getD` after `set` at the same (valid) index. -/
theorem getD_set_eq {α : Type} [Inhabited α] (l : List α) (i : Nat) (a : α)
    (h : i < l.length) : (l.set i a).getD i default = a := by
  rw [List.getD_eq_getElem?_getD, List.getElem?_set_self h]
  rfl

/-- Helper: `getD` after `set` at a different index. -/
theorem getD_set_ne {α : Type} [Inhabited α] (l : List α) {i j : Nat} (a : α)
    (h : i ≠ j) : (l.set i a).getD j default = l.getD j default := by
  rw [List.getD_eq_getElem?_getD, List.getElem?_set_ne h,
    ← List.getD_eq_getElem?_getD]

/-- Every element of a sifted heap was in the heap or is the held item. -/
theorem siftdownLoop_mem (fuel : Nat) (heap : List Entry) (startpos pos : Nat)
    (newitem : Entry) (hpos : pos < heap.length) :
    ∀ x ∈ siftdownLoop fuel heap startpos pos newitem,
      x ∈ heap ∨ x = newitem := by
  induction fuel generalizing heap pos with
  | zero => exact fun x hx => List.mem_or_eq_of_mem_set hx
  | succ fuel ih =>
    intro x hx
    rw [siftdownLoop] at hx
    dsimp only at hx
    split at hx
    · rename_i hsp
      split at hx
      · have hplt : (pos - 1) / 2 < heap.length := by omega
        have := ih (heap.set pos (heap.getD ((pos - 1) / 2) default))
          ((pos - 1) / 2) (by simpa using hplt) x hx
        rcases this with h1 | h2
        · rcases List.mem_or_eq_of_mem_set h1 with h3 | h4
          · exact Or.inl h3
          · exact Or.inl (h4 ▸ getD_mem hplt)
        · exact Or.inr h2
      · exact List.mem_or_eq_of_mem_set hx
    · exact List.mem_or_eq_of_mem_set hx

/-- Every element of a sifted heap was in the heap or is the held item. -/
theorem siftupLoop_mem (fuel : Nat) (heap : List Entry) (startpos pos : Nat)
    (newitem : Entry) (hpos : pos < heap.length) :
    ∀ x ∈ siftupLoop fuel heap startpos pos newitem,
      x ∈ heap ∨ x = newitem := by
  induction fuel generalizing heap pos with
  | zero =>
    intro x hx
    unfold siftupLoop siftdown at hx
    have := siftdownLoop_mem pos (heap.set pos newitem) startpos pos _
      (by simpa using hpos) x hx
    rcases this with h1 | h2
    · exact List.mem_or_eq_of_mem_set h1
    · rw [getD_set_eq _ _ _ hpos] at h2
      exact Or.inr h2
  | succ fuel ih =>
    intro x hx
    rw [siftupLoop] at hx
    dsimp only at hx
    split at hx
    · rename_i hc
      split at hx
      · rename_i hr
        have hrlt : 2 * pos + 1 + 1 < heap.length := hr.1
        have := ih (heap.set pos (heap.getD (2 * pos + 1 + 1) default))
          (2 * pos + 1 + 1) (by simpa using hrlt) x hx
        rcases this with h1 | h2
        · rcases List.mem_or_eq_of_mem_set h1 with h3 | h4
          · exact Or.inl h3
          · exact Or.inl (h4 ▸ getD_mem hrlt)
        · exact Or.inr h2
      · have := ih (heap.set pos (heap.getD (2 * pos + 1) default))
          (2 * pos + 1) (by simpa using hc) x hx
        rcases this with h1 | h2
        · rcases List.mem_or_eq_of_mem_set h1 with h3 | h4
          · exact Or.inl h3
          · exact Or.inl (h4 ▸ getD_mem hc)
        · exact Or.inr h2
    · unfold siftdown at hx
      have := siftdownLoop_mem pos (heap.set pos newitem) startpos pos _
        (by simpa using hpos) x hx
      rcases this with h1 | h2
      · exact List.mem_or_eq_of_mem_set h1
      · rw [getD_set_eq _ _ _ hpos] at h2
        exact Or.inr h2

/-- Popping a non-empty heap returns its root, and every entry of the
resulting heap comes from the tail of the original list. -/
theorem heappop_mem {l0 : Entry} {t rest : List Entry} {e : Entry}
    (h : heappop (l0 :: t) = some (e, rest)) :
    e = l0 ∧ ∀ x ∈ rest, x ∈ t := by
  cases t with
  | nil =>
    unfold heappop at h
    simp at h
    obtain ⟨h1, h2⟩ := h
    subst h2
    exact ⟨h1.symm, by intro x hx; simp at hx⟩
  | cons t1 ts =>
    have hne : t1 :: ts ≠ [] := by simp
    have hlast : (l0 :: t1 :: ts).getLast? = some ((t1 :: ts).getLast hne) := by
      rw [List.getLast?_cons_cons, List.getLast?_eq_getLast _ hne]
    unfold heappop at h
    rw [hlast] at h
    dsimp only at h
    have hdl : (l0 :: t1 :: ts).dropLast = l0 :: (t1 :: ts).dropLast := by
      simp [List.dropLast_cons_of_ne_nil, hne]
    rw [hdl] at h
    simp only [List.isEmpty_cons, Bool.false_eq_true, if_false,
      List.getD_cons_zero, List.set_cons_zero, Option.some_inj,
      Prod.mk.injEq] at h
    obtain ⟨he, hrest⟩ := h
    refine ⟨he.symm, ?_⟩
    intro x hx
    rw [← hrest] at hx
    unfold siftup at hx
    have hXlen :
        0 < ((t1 :: ts).getLast hne :: (t1 :: ts).dropLast).length := by
      simp
    have hm := siftupLoop_mem _ _ 0 0 _ hXlen x hx
    have hget :
        ((t1 :: ts).getLast hne :: (t1 :: ts).dropLast).getD 0 default =
          (t1 :: ts).getLast hne := rfl
    rw [hget] at hm
    rcases hm with h1 | h2
    · rcases List.mem_cons.mp h1 with h3 | h4
      · exact h3 ▸ List.getLast_mem hne
      · exact (List.dropLast_sublist (t1 :: ts)).mem h4
    · exact h2 ▸ List.getLast_mem hne

/-- The matching sweep only appends to the trade log. -/
theorem matchLoop_log_prefix (fuel : Nat) (orders : List Order)
    (book : List Entry) (log : List Trade) (remaining : Int) (aggrId : Nat) :
    log <+: (matchLoop fuel orders book log remaining aggrId).log := by
  induction fuel generalizing orders book log remaining with
  | zero => exact List.prefix_refl _
  | succ fuel ih =>
    rw [matchLoop]
    dsimp only
    repeat' split
    all_goals
      first
        | exact List.prefix_refl _
        | exact List.prefix_append _ _
        | exact (List.prefix_append _ _).trans (ih ..)

/-- C5: at every sweep state of `_match_market_order` in which the popped top
resting order `(pr, i)` satisfies the aggressor's price bound, the fill
appends exactly one trade record whose `trade_price` is the *resting*
order's price `tp` (never the aggressor's bound `ap`) and whose `trade_qty`
is `min remaining (resting order's quantity)`; the log then only grows.
Every fill of every market sweep is the head step of such a state. -/
theorem C5_fill_at_resting_price_min_qty (fuel : Nat) (orders : List Order)
    (book : List Entry) (log : List Trade) (remaining : Int) (aggrId : Nat)
    (pr tp ap : ℚ) (i : Nat) (book' : List Entry)
    (hrem : 0 < remaining) (hne : book ≠ [])
    (hpop : heappop book = some ((pr, i), book'))
    (htp : (listOrd orders i).price = some tp)
    (hap : (listOrd orders aggrId).price = some ap)
    (hbound : ((listOrd orders aggrId).direction = OrderDirection.BUY ∧
        tp ≤ ap) ∨
      ((listOrd orders aggrId).direction = OrderDirection.SELL ∧ tp ≥ ap)) :
    (log ++ [{
      buyer_id := if (listOrd orders aggrId).direction = OrderDirection.BUY
        then (listOrd orders aggrId).order_id else (listOrd orders i).order_id
      seller_id := if (listOrd orders aggrId).direction = OrderDirection.BUY
        then (listOrd orders i).order_id else (listOrd orders aggrId).order_id
      trade_timestamp := (listOrd orders aggrId).timestep
      trade_price := tp
      trade_qty := min remaining (listOrd orders i).quantity }]) <+:
    (matchLoop (fuel + 1) orders book log remaining aggrId).log := by
  have htp0 : (if tp = 0 then (0 : ℚ) else tp) = tp := by
    by_cases h0 : tp = 0 <;> simp [h0]
  rw [matchLoop]
  dsimp only
  rw [if_pos (show 0 < remaining ∧ book ≠ [] from ⟨hrem, hne⟩), hpop]
  dsimp only
  rw [htp, hap]
  dsimp only
  rw [if_pos hbound, htp0]
  by_cases hdir : (listOrd orders aggrId).direction = OrderDirection.BUY <;>
    simp only [hdir, if_true, if_false] <;>
    (repeat' split) <;>
    first
      | exact List.prefix_refl _
      | exact matchLoop_log_prefix ..

/-- C5 witness: a BUY MARKET 500 bound 10.2 filling against a resting SELL
LIMIT 500 @ 10.2. -/
theorem C5_witness :
    ((0 : Int) < 500 ∧ c5_book ≠ [] ∧
      heappop c5_book = some ((mkRat 102 10, 0), []) ∧
      (listOrd c5_orders 0).price = some (mkRat 102 10) ∧
      (listOrd c5_orders 1).price = some (mkRat 102 10) ∧
      (((listOrd c5_orders 1).direction = OrderDirection.BUY ∧
          (mkRat 102 10) ≤ (mkRat 102 10)) ∨
        ((listOrd c5_orders 1).direction = OrderDirection.SELL ∧
          (mkRat 102 10) ≥ (mkRat 102 10)))) ∧
    (([] ++ [{
      buyer_id := if (listOrd c5_orders 1).direction = OrderDirection.BUY
        then (listOrd c5_orders 1).order_id else (listOrd c5_orders 0).order_id
      seller_id := if (listOrd c5_orders 1).direction = OrderDirection.BUY
        then (listOrd c5_orders 0).order_id else (listOrd c5_orders 1).order_id
      trade_timestamp := (listOrd c5_orders 1).timestep
      trade_price := mkRat 102 10
      trade_qty := min 500 (listOrd c5_orders 0).quantity }]) <+:
    (matchLoop (0 + 1) c5_orders c5_book [] 500 1).log) :=
  ⟨⟨by decide, by decide, by decide, by decide, by decide, by decide⟩,
    C5_fill_at_resting_price_min_qty 0 c5_orders c5_book [] 500 1
      (mkRat 102 10) (mkRat 102 10) (mkRat 102 10) 0 [] (by decide)
      (by decide) (by decide) (by decide) (by decide) (by decide)⟩

/-- C8: at every sweep state of `_match_market_order` in which the popped top
resting order `(pr, i)` fails the aggressor's price bound, the sweep stops
at once: the loop returns with the store, log and remaining quantity exactly
as they were, the book equal to the heap after the pop, and the popped order
— still PENDING with positive, unchanged quantity — is *not* re-inserted:
no entry for `i` remains in its side's collection (its id occurred exactly
once), so a later best-price peek cannot see it. -/
theorem C8_bound_reject_drops_popped_order (fuel : Nat) (orders : List Order)
    (book : List Entry) (log : List Trade) (remaining : Int) (aggrId : Nat)
    (pr tp ap : ℚ) (i : Nat) (book' : List Entry)
    (hrem : 0 < remaining) (hne : book ≠ [])
    (hpop : heappop book = some ((pr, i), book'))
    (htp : (listOrd orders i).price = some tp)
    (hap : (listOrd orders aggrId).price = some ap)
    (hbound : ¬ (((listOrd orders aggrId).direction = OrderDirection.BUY ∧
        tp ≤ ap) ∨
      ((listOrd orders aggrId).direction = OrderDirection.SELL ∧ tp ≥ ap)))
    (hstat : (listOrd orders i).status = OrderStatus.PENDING)
    (hqty : 0 < (listOrd orders i).quantity)
    (huniq : (book.map Prod.snd).count i = 1) :
    matchLoop (fuel + 1) orders book log remaining aggrId =
      ⟨orders, book', log, remaining, none⟩ ∧
    ∀ e ∈ book', e.2 ≠ i := by
  constructor
  · rw [matchLoop]
    dsimp only
    rw [if_pos ⟨hrem, hne⟩, hpop]
    dsimp only
    rw [htp, hap]
    dsimp only
    rw [if_neg hbound]
  · obtain ⟨b0, t, rfl⟩ : ∃ b0 t, book = b0 :: t := by
      cases book with
      | nil => exact absurd rfl hne
      | cons b0 t => exact ⟨b0, t, rfl⟩
    obtain ⟨he, hsub⟩ := heappop_mem hpop
    intro e he' heq
    have hxe : e ∈ t := hsub e he'
    have hb0 : b0.2 = i := by rw [← he]
    have hcnt : (t.map Prod.snd).count i = 0 := by
      have : ((b0 :: t).map Prod.snd).count i =
          (t.map Prod.snd).count i + 1 := by
        simp [hb0]
      omega
    have : i ∈ t.map Prod.snd := heq ▸ List.mem_map_of_mem Prod.snd hxe
    rw [List.count_eq_zero] at hcnt
    exact hcnt this

/-- C8 witness: a BUY MARKET bound 10.0 pops the only resting ask at 10.2;
the bound fails, the sweep stops, and the resting order — still PENDING with
quantity 500 — is gone from the ask side. -/
theorem C8_witness :
    ((0 : Int) < 300 ∧ c8_book ≠ [] ∧
      heappop c8_book = some ((mkRat 102 10, 0), []) ∧
      (listOrd c8_orders 0).price = some (mkRat 102 10) ∧
      (listOrd c8_orders 1).price = some (mkRat 100 10) ∧
      ¬ (((listOrd c8_orders 1).direction = OrderDirection.BUY ∧
          (mkRat 102 10) ≤ (mkRat 100 10)) ∨
        ((listOrd c8_orders 1).direction = OrderDirection.SELL ∧
          (mkRat 102 10) ≥ (mkRat 100 10))) ∧
      (listOrd c8_orders 0).status = OrderStatus.PENDING ∧
      0 < (listOrd c8_orders 0).quantity ∧
      (c8_book.map Prod.snd).count 0 = 1) ∧
    (matchLoop (0 + 1) c8_orders c8_book [] 300 1 =
      ⟨c8_orders, [], [], 300, none⟩ ∧
    ∀ e ∈ ([] : List Entry), e.2 ≠ 0) :=
  ⟨⟨by decide, by decide, by decide, by decide, by decide, by decide,
      by decide, by decide, by decide⟩,
    C8_bound_reject_drops_popped_order 0 c8_orders c8_book [] 300 1
      (mkRat 102 10) (mkRat 102 10) (mkRat 100 10) 0 [] (by decide)
      (by decide) (by decide) (by decide) (by decide) (by decide) (by decide)
      (by decide) (by decide)⟩

/-- Helper: `check_timeout`'s returned (possibly mutated) order. -/
theorem check_timeout_fst (o : Order) (t : Int) :
    (o.check_timeout t).1 =
      if t - o.timestep > o.max_wait_time
      then { o with status := OrderStatus.CANCELLED } else o := by
  unfold Order.check_timeout
  split <;> rfl

/-- Helper: `check_timeout`'s returned boolean is the timeout predicate. -/
theorem check_timeout_snd (o : Order) (t : Int) :
    (o.check_timeout t).2 = decide (t - o.timestep > o.max_wait_time) := by
  unfold Order.check_timeout
  split <;> simp_all

/-- Helper: `check_timeout` never changes `timestep`. -/
theorem check_timeout_fst_timestep (o : Order) (t : Int) :
    (o.check_timeout t).1.timestep = o.timestep := by
  unfold Order.check_timeout
  split <;> rfl

/-- Helper: `check_timeout` never changes `max_wait_time`. -/
theorem check_timeout_fst_max_wait (o : Order) (t : Int) :
    (o.check_timeout t).1.max_wait_time = o.max_wait_time := by
  unfold Order.check_timeout
  split <;> rfl

/-- The timeout predicate only reads immutable fields, so a `check_timeout`
write into the store never changes it. -/
theorem timedOut_set_check (orders : List Order) (j : Nat) (t t' : Int)
    (e : Entry) :
    timedOut (orders.set j ((listOrd orders j).check_timeout t).1) t' e =
      timedOut orders t' e := by
  unfold timedOut
  by_cases hj : j = e.2
  · subst hj
    by_cases hlt : e.2 < orders.length
    · unfold listOrd
      rw [getD_set_eq _ _ _ hlt]
      rw [check_timeout_fst_timestep, check_timeout_fst_max_wait]
    · rw [List.set_eq_of_length_le (by omega)]
  · unfold listOrd
    rw [getD_set_ne _ _ hj]

/-- A cancellation sweep never changes the timeout predicate. -/
theorem cancelLoop_orders_timedOut (snap : List Entry) :
    ∀ (orders : List Order) (cur : List Entry) (t t' : Int) (e : Entry),
    timedOut (cancelLoop orders snap cur t).1 t' e = timedOut orders t' e := by
  induction snap with
  | nil => intro orders cur t t' e; rw [cancelLoop]
  | cons e0 rest ih =>
    intro orders cur t t' e
    rw [cancelLoop]
    split
    · rw [ih, timedOut_set_check]
    · rw [ih, timedOut_set_check]

/-- A cancellation sweep preserves the store's length. -/
theorem cancelLoop_orders_length (snap : List Entry) :
    ∀ (orders : List Order) (cur : List Entry) (t : Int),
    (cancelLoop orders snap cur t).1.length = orders.length := by
  induction snap with
  | nil => intro orders cur t; rw [cancelLoop]
  | cons e0 rest ih =>
    intro orders cur t
    rw [cancelLoop]
    split
    · rw [ih, List.length_set]
    · rw [ih, List.length_set]

/-- Helper: erasing an element the filter drops anyway commutes away. -/
theorem filter_erase_neg {p : Entry → Bool} {e : Entry} (l : List Entry)
    (hpe : p e = false) : (l.erase e).filter p = l.filter p := by
  rw [← List.erase_filter p l]
  apply List.erase_of_not_mem
  intro hmem
  have h := List.mem_filter.mp hmem
  rw [hpe] at h
  exact absurd h.2 (by simp)

/-- The live-list thread of a cancellation sweep removes exactly the
timed-out entries: starting from a snapshot of the duplicate-free list, the
result is the filter keeping the non-timed-out entries. -/
theorem cancelLoop_cur (q : Entry → Bool) (snap : List Entry) :
    ∀ (orders : List Order) (cur : List Entry) (t : Int),
    (∀ x, timedOut orders t x = q x) → snap.Nodup → snap.Sublist cur →
    cur.Nodup → (∀ x ∈ cur, q x = true → x ∈ snap) →
    (cancelLoop orders snap cur t).2 = cur.filter (fun e => ! q e) := by
  induction snap with
  | nil =>
    intro orders cur t hq hnd hsub hcnd hall
    rw [cancelLoop]
    dsimp only
    symm
    apply List.filter_eq_self.mpr
    intro a ha
    have h1 : ¬ q a = true := fun hqa => by simpa using hall a ha hqa
    simpa using h1
  | cons e rest ih =>
    intro orders cur t hq hnd hsub hcnd hall
    rw [cancelLoop]
    have hqe : ((listOrd orders e.2).check_timeout t).2 = q e := by
      rw [check_timeout_snd]
      exact hq e
    have hq' : ∀ x,
        timedOut (orders.set e.2 ((listOrd orders e.2).check_timeout t).1) t
          x = q x := fun x => (timedOut_set_check ..).trans (hq x)
    split
    · rename_i htrue
      have hqe_true : q e = true := by rw [← hqe]; exact htrue
      have hrest_sub : rest.Sublist (cur.erase e) := by
        have h1 : ((e :: rest).erase e).Sublist (cur.erase e) :=
          List.Sublist.erase e hsub
        simpa using h1
      rw [ih _ _ t hq' hnd.of_cons hrest_sub (hcnd.erase e) ?_]
      · exact filter_erase_neg cur (by simp [hqe_true])
      · intro x hx hqx
        have hx_cur := List.mem_of_mem_erase hx
        have hxne : x ≠ e := ((List.Nodup.mem_erase_iff hcnd).mp hx).1
        rcases List.mem_cons.mp (hall x hx_cur hqx) with h | h
        · exact absurd h hxne
        · exact h
    · rename_i hfalse
      have hqe_false : q e = false := by
        rw [← hqe]
        simpa using hfalse
      refine ih _ _ t hq' hnd.of_cons (List.sublist_of_cons_sublist hsub)
        hcnd ?_
      intro x hx hqx
      rcases List.mem_cons.mp (hall x hx hqx) with h | h
      · rw [h] at hqx
        rw [hqx] at hqe_false
        cases hqe_false
      · exact h

/-- A cancellation sweep leaves every order whose id is not referenced by the
snapshot untouched. -/
theorem cancelLoop_store_untouched (snap : List Entry) :
    ∀ (orders : List Order) (cur : List Entry) (t : Int) (j : Nat),
    (∀ e ∈ snap, e.2 ≠ j) →
    listOrd (cancelLoop orders snap cur t).1 j = listOrd orders j := by
  induction snap with
  | nil => intro orders cur t j hj; rw [cancelLoop]
  | cons e0 rest ih =>
    intro orders cur t j hj
    rw [cancelLoop]
    have hne : e0.2 ≠ j := hj e0 (List.mem_cons_self e0 rest)
    have hstep : listOrd
        (orders.set e0.2 ((listOrd orders e0.2).check_timeout t).1) j =
        listOrd orders j := by
      unfold listOrd
      rw [getD_set_ne _ _ hne]
    split
    · rw [ih _ _ _ _ (fun e he => hj e (List.mem_cons_of_mem e0 he)), hstep]
    · rw [ih _ _ _ _ (fun e he => hj e (List.mem_cons_of_mem e0 he)), hstep]

/-- A cancellation sweep marks the order of each timed-out snapshot entry
CANCELLED and leaves the order of each other snapshot entry unchanged. -/
theorem cancelLoop_store_spec (snap : List Entry) :
    ∀ (orders : List Order) (cur : List Entry) (t : Int),
    (∀ e ∈ snap, e.2 < orders.length) → (snap.map Prod.snd).Nodup →
    ∀ e ∈ snap,
      listOrd (cancelLoop orders snap cur t).1 e.2 =
        if timedOut orders t e
        then { listOrd orders e.2 with status := OrderStatus.CANCELLED }
        else listOrd orders e.2 := by
  induction snap with
  | nil => intro orders cur t hval hnd e he; cases he
  | cons e0 rest ih =>
    intro orders cur t hval hnd e he
    have hnd_ids : e0.2 ∉ rest.map Prod.snd := by
      have h1 : (e0.2 :: rest.map Prod.snd).Nodup := by simpa using hnd
      exact h1.not_mem
    rw [cancelLoop]
    rcases List.mem_cons.mp he with he0 | hrest
    · subst he0
      have hrest_ne : ∀ e' ∈ rest, e'.2 ≠ e.2 := by
        intro e' he' hcontra
        exact hnd_ids (hcontra ▸ List.mem_map_of_mem Prod.snd he')
      have hval0 : e.2 < orders.length := hval e (List.mem_cons_self e rest)
      have hset : listOrd
          (orders.set e.2 ((listOrd orders e.2).check_timeout t).1) e.2 =
          ((listOrd orders e.2).check_timeout t).1 := by
        unfold listOrd
        rw [getD_set_eq _ _ _ hval0]
      split
      · rw [cancelLoop_store_untouched rest _ _ _ _ hrest_ne, hset,
          check_timeout_fst]
        unfold timedOut
        by_cases hto : t - (listOrd orders e.2).timestep >
            (listOrd orders e.2).max_wait_time
        · rw [if_pos hto, if_pos (by simpa using hto)]
        · rw [if_neg hto, if_neg (by simpa using hto)]
      · rw [cancelLoop_store_untouched rest _ _ _ _ hrest_ne, hset,
          check_timeout_fst]
        unfold timedOut
        by_cases hto : t - (listOrd orders e.2).timestep >
            (listOrd orders e.2).max_wait_time
        · rw [if_pos hto, if_pos (by simpa using hto)]
        · rw [if_neg hto, if_neg (by simpa using hto)]
    · have hne : e0.2 ≠ e.2 := by
        intro hcontra
        exact hnd_ids (hcontra ▸ List.mem_map_of_mem Prod.snd hrest)
      have hstep : listOrd
          (orders.set e0.2 ((listOrd orders e0.2).check_timeout t).1) e.2 =
          listOrd orders e.2 := by
        unfold listOrd
        rw [getD_set_ne _ _ hne]
      have hval' : ∀ e' ∈ rest, e'.2 <
          (orders.set e0.2
            ((listOrd orders e0.2).check_timeout t).1).length := by
        intro e' he'
        rw [List.length_set]
        exact hval e' (List.mem_cons_of_mem e0 he')
      have hnd' : (rest.map Prod.snd).Nodup := by
        have h1 : (e0.2 :: rest.map Prod.snd).Nodup := by simpa using hnd
        exact h1.of_cons
      split
      · rw [ih _ _ _ hval' hnd' e hrest, timedOut_set_check, hstep]
      · rw [ih _ _ _ hval' hnd' e hrest, timedOut_set_check, hstep]

/-- C6: `cancel_timed_out_orders t` removes from the two priority
collections exactly the entries whose order satisfies
`t - timestep > max_wait_time` (so an order with
`t - timestep = max_wait_time` is kept), marks each removed entry's order
CANCELLED, and touches nothing else: every other entry stays (in order),
every other referenced order keeps its exact state, unreferenced orders are
untouched, and the trade log is unchanged. -/
theorem C6_cancel_timed_out_exact (s : Sim) (t : Int)
    (hnd : ((s.buys ++ s.sells).map Prod.snd).Nodup)
    (hval : ∀ e ∈ s.buys ++ s.sells, e.2 < s.orders.length) :
    (cancel_timed_out_orders s t).buys =
      s.buys.filter (fun e => ! timedOut s.orders t e) ∧
    (cancel_timed_out_orders s t).sells =
      s.sells.filter (fun e => ! timedOut s.orders t e) ∧
    (cancel_timed_out_orders s t).trade_log = s.trade_log ∧
    (∀ e ∈ s.buys ++ s.sells, timedOut s.orders t e = true →
      listOrd (cancel_timed_out_orders s t).orders e.2 =
        { listOrd s.orders e.2 with status := OrderStatus.CANCELLED }) ∧
    (∀ e ∈ s.buys ++ s.sells, timedOut s.orders t e = false →
      listOrd (cancel_timed_out_orders s t).orders e.2 =
        listOrd s.orders e.2) ∧
    (∀ j : Nat, (∀ e ∈ s.buys ++ s.sells, e.2 ≠ j) →
      listOrd (cancel_timed_out_orders s t).orders j = listOrd s.orders j) := by
  have hmap : (s.buys.map Prod.snd ++ s.sells.map Prod.snd).Nodup := by
    rw [← List.map_append]
    exact hnd
  obtain ⟨hndb, hnds, hdisj⟩ := List.nodup_append.mp hmap
  have hndbE : s.buys.Nodup := hndb.of_map
  have hndsE : s.sells.Nodup := hnds.of_map
  have hb_untouched_sells : ∀ e ∈ s.buys, ∀ e' ∈ s.sells, e'.2 ≠ e.2 := by
    intro e he e' he' hc
    exact hdisj (List.mem_map_of_mem Prod.snd he)
      (hc ▸ List.mem_map_of_mem Prod.snd he')
  have hs_untouched_buys : ∀ e ∈ s.sells, ∀ e' ∈ s.buys, e'.2 ≠ e.2 := by
    intro e he e' he' hc
    exact hdisj (hc ▸ List.mem_map_of_mem Prod.snd he')
      (List.mem_map_of_mem Prod.snd he)
  have hbstore : ∀ e ∈ s.buys,
      listOrd (cancelLoop (cancelLoop s.orders s.buys s.buys t).1
          s.sells s.sells t).1 e.2 =
        if timedOut s.orders t e
        then { listOrd s.orders e.2 with status := OrderStatus.CANCELLED }
        else listOrd s.orders e.2 := by
    intro e he
    have h1 := cancelLoop_store_untouched s.sells
      (cancelLoop s.orders s.buys s.buys t).1 s.sells t e.2
      (hb_untouched_sells e he)
    rw [h1]
    exact cancelLoop_store_spec s.buys s.orders s.buys t
      (fun e' he' => hval e' (List.mem_append_left _ he')) hndb e he
  have hsstore : ∀ e ∈ s.sells,
      listOrd (cancelLoop (cancelLoop s.orders s.buys s.buys t).1
          s.sells s.sells t).1 e.2 =
        if timedOut s.orders t e
        then { listOrd s.orders e.2 with status := OrderStatus.CANCELLED }
        else listOrd s.orders e.2 := by
    intro e he
    have h2 := cancelLoop_store_spec s.sells
      (cancelLoop s.orders s.buys s.buys t).1 s.sells t
      (fun e' he' => by
        rw [cancelLoop_orders_length]
        exact hval e' (List.mem_append_right _ he')) hnds e he
    rw [cancelLoop_orders_timedOut] at h2
    have h3 := cancelLoop_store_untouched s.buys s.orders s.buys t e.2
      (hs_untouched_buys e he)
    rw [h3] at h2
    exact h2
  refine ⟨?_, ?_, rfl, ?_, ?_, ?_⟩
  · exact cancelLoop_cur (fun e => timedOut s.orders t e) s.buys s.orders
      s.buys t (fun x => rfl) hndbE (List.Sublist.refl _) hndbE
      (fun x hx _ => hx)
  · exact cancelLoop_cur (fun e => timedOut s.orders t e) s.sells
      (cancelLoop s.orders s.buys s.buys t).1 s.sells t
      (fun x => cancelLoop_orders_timedOut s.buys s.orders s.buys t t x)
      hndsE (List.Sublist.refl _) hndsE (fun x hx _ => hx)
  · intro e he htrue
    rcases List.mem_append.mp he with hb | hs
    · rw [show listOrd (cancel_timed_out_orders s t).orders e.2 =
          listOrd (cancelLoop (cancelLoop s.orders s.buys s.buys t).1
            s.sells s.sells t).1 e.2 from rfl, hbstore e hb, if_pos htrue]
    · rw [show listOrd (cancel_timed_out_orders s t).orders e.2 =
          listOrd (cancelLoop (cancelLoop s.orders s.buys s.buys t).1
            s.sells s.sells t).1 e.2 from rfl, hsstore e hs, if_pos htrue]
  · intro e he hfalse
    rcases List.mem_append.mp he with hb | hs
    · rw [show listOrd (cancel_timed_out_orders s t).orders e.2 =
          listOrd (cancelLoop (cancelLoop s.orders s.buys s.buys t).1
            s.sells s.sells t).1 e.2 from rfl, hbstore e hb,
          if_neg (by simp [hfalse])]
    · rw [show listOrd (cancel_timed_out_orders s t).orders e.2 =
          listOrd (cancelLoop (cancelLoop s.orders s.buys s.buys t).1
            s.sells s.sells t).1 e.2 from rfl, hsstore e hs,
          if_neg (by simp [hfalse])]
  · intro j hj
    have hs1 := cancelLoop_store_untouched s.sells
      (cancelLoop s.orders s.buys s.buys t).1 s.sells t j
      (fun e he => hj e (List.mem_append_right _ he))
    have hs2 := cancelLoop_store_untouched s.buys s.orders s.buys t j
      (fun e he => hj e (List.mem_append_left _ he))
    exact hs1.trans hs2

/-- C6 witness: at `t = 5`, the bid whose wait budget is exactly met
(`5 - 0 = max_wait_time = 5`) is kept PENDING, while the ask with
`max_wait_time = 2` is removed and its order marked CANCELLED; the trade log
is untouched. -/
theorem C6_witness :
    (((c6_s.buys ++ c6_s.sells).map Prod.snd).Nodup ∧
      (∀ e ∈ c6_s.buys ++ c6_s.sells, e.2 < c6_s.orders.length)) ∧
    ((cancel_timed_out_orders c6_s 5).buys =
        c6_s.buys.filter (fun e => ! timedOut c6_s.orders 5 e) ∧
      (cancel_timed_out_orders c6_s 5).sells =
        c6_s.sells.filter (fun e => ! timedOut c6_s.orders 5 e) ∧
      (cancel_timed_out_orders c6_s 5).trade_log = c6_s.trade_log ∧
      (∀ e ∈ c6_s.buys ++ c6_s.sells, timedOut c6_s.orders 5 e = true →
        listOrd (cancel_timed_out_orders c6_s 5).orders e.2 =
          { listOrd c6_s.orders e.2 with status := OrderStatus.CANCELLED }) ∧
      (∀ e ∈ c6_s.buys ++ c6_s.sells, timedOut c6_s.orders 5 e = false →
        listOrd (cancel_timed_out_orders c6_s 5).orders e.2 =
          listOrd c6_s.orders e.2) ∧
      (∀ j : Nat, (∀ e ∈ c6_s.buys ++ c6_s.sells, e.2 ≠ j) →
        listOrd (cancel_timed_out_orders c6_s 5).orders j =
          listOrd c6_s.orders j)) ∧
    (cancel_timed_out_orders c6_s 5).buys = [(-(mkRat 10 1), 0)] ∧
    (cancel_timed_out_orders c6_s 5).sells = [] ∧
    (listOrd (cancel_timed_out_orders c6_s 5).orders 0).status =
      OrderStatus.PENDING ∧
    (listOrd (cancel_timed_out_orders c6_s 5).orders 1).status =
      OrderStatus.CANCELLED :=
  ⟨⟨by decide, by decide⟩,
    C6_cancel_timed_out_exact c6_s 5 (by decide) (by decide),
    by decide, by decide, by decide, by decide⟩

end OrderEngine
